import Mathlib

/-!
Verification development for the `paper_formatter` citation / reference
engine (`app/formatters/citations.py`, `app/formatters/references.py`,
`app/core/document_parser.py`).

Text is modelled as `List Char`; paragraphs are ordered lists of runs
carrying a formatting-attribute record; the Python regexes are embedded
as deterministic matchers with the same greedy/backtracking behaviour on
the character classes they use.
-/

set_option maxRecDepth 10000

abbrev Str := List Char

/-- Convert a string literal into the `List Char` representation. -/
def str (x : String) : Str := x.toList

/-- The apostrophe character (U+0027), used by several warning strings. -/
def squote : Char := Char.ofNat 39

-- ---------------------------------------------------------------------------
-- Character classes (ASCII fragments of Python's \s, \d, [a-z], [A-Z])
-- ---------------------------------------------------------------------------

def isWs (c : Char) : Bool :=
  c = ' ' || c = '\t' || c = '\n' || c = '\x0d' || c = '\x0b' || c = '\x0c'

def isDig (c : Char) : Bool := '0' ≤ c && c ≤ '9'

def isLo (c : Char) : Bool := 'a' ≤ c && c ≤ 'z'

def isUp (c : Char) : Bool := 'A' ≤ c && c ≤ 'Z'

-- ---------------------------------------------------------------------------
-- Python string helpers: strip / lstrip / rstrip / lower / find / rfind ...
-- ---------------------------------------------------------------------------

/-- Python `str.strip()`. -/
def stripStr (t : Str) : Str :=
  ((t.dropWhile isWs).reverse.dropWhile isWs).reverse

/-- Python `str.lstrip(chars)`: drop leading characters of the class. -/
def lstripCl (f : Char → Bool) (t : Str) : Str := t.dropWhile f

/-- Python `str.rstrip(chars)`: drop trailing characters of the class. -/
def rstripCl (f : Char → Bool) (t : Str) : Str :=
  (t.reverse.dropWhile f).reverse

/-- Python `str.lower()` (ASCII). -/
def lowerStr (t : Str) : Str := t.map Char.toLower

/-- Python `str.isdigit()`: nonempty and all digits. -/
def isDigitStr (t : Str) : Bool := !t.isEmpty && t.all isDig

/-- Decimal value of a digit string (Python `int`). -/
def strToNat (t : Str) : Nat :=
  t.foldl (fun a c => a * 10 + (c.toNat - 48)) 0

/-- Decimal rendering of a number (Python `str(n)`). -/
def natToStr (n : Nat) : Str := (toString n).toList

/-- Python `hay.find(needle)` as an option (index of first occurrence). -/
def findSub (hay needle : Str) : Option Nat :=
  if needle.isPrefixOf hay then some 0
  else
    match hay with
    | [] => none
    | _ :: t => (findSub t needle).map (· + 1)

/-- Python `hay.rfind(needle)`: start of the last occurrence, `-1` if absent. -/
def rfindSub (hay needle : Str) : Int :=
  match (((List.range (hay.length + 1)).filter
      (fun i => needle.isPrefixOf (hay.drop i))).getLast?) with
  | some i => (i : Int)
  | none => -1

/-- Python `s.replace(pat, rep)` (all non-overlapping occurrences), fuelled. -/
def strReplaceAux (pat rep : Str) : Nat → Str → Str
  | 0, s => s
  | _ + 1, [] => if pat = [] then rep else []
  | fuel + 1, c :: t =>
    if pat.isPrefixOf (c :: t) && !pat.isEmpty then
      rep ++ strReplaceAux pat rep fuel ((c :: t).drop pat.length)
    else
      c :: strReplaceAux pat rep fuel t

def strReplace (s pat rep : Str) : Str := strReplaceAux pat rep (s.length + 1) s

/-- Python `",".join(map(str, nums))`. -/
def joinNums (sep : Str) : List Nat → Str
  | [] => []
  | [n] => natToStr n
  | n :: rest => natToStr n ++ sep ++ joinNums sep rest

-- ---------------------------------------------------------------------------
-- Generic regex scaffolding.  A matcher consumes a match at the head of the
-- input and returns the captured data plus the rest of the input.
-- `rxSearch` scans for the leftmost match (Python `re.search`);
-- `rxFindIter` enumerates non-overlapping matches (Python `re.finditer`).
-- ---------------------------------------------------------------------------

def pCh (c : Char) : Str → Option Str
  | x :: r => if x = c then some r else none
  | [] => none

/-- Case-insensitive single character (for the IGNORECASE doi regex). -/
def pChCI (c : Char) : Str → Option Str
  | x :: r => if x.toLower = c.toLower then some r else none
  | [] => none

def pCl (f : Char → Bool) : Str → Option Str
  | x :: r => if f x then some r else none
  | [] => none

/-- Literal word. -/
def pLit (w : Str) (s : Str) : Option Str :=
  if w.isPrefixOf s then some (s.drop w.length) else none

/-- Case-insensitive literal word. -/
def pLitCI (w : Str) (s : Str) : Option Str :=
  if (lowerStr w).isPrefixOf (lowerStr s) then some (s.drop w.length) else none

/-- Greedy `class+`: maximal nonempty run, returning (captured, rest). -/
def pMany1 (f : Char → Bool) : Str → Option (Str × Str)
  | x :: r =>
    if f x then some (x :: r.takeWhile f, r.dropWhile f) else none
  | [] => none

/-- Exactly `n` characters of a class (for `\d{4}`). -/
def pExact (f : Char → Bool) : Nat → Str → Option (Str × Str)
  | 0, s => some ([], s)
  | n + 1, x :: r =>
    if f x then (pExact f n r).map (fun (d, rest) => (x :: d, rest)) else none
  | _ + 1, [] => none

/-- Committed optional element (used where the regex cannot backtrack). -/
def pOpt (p : Str → Option Str) (s : Str) : Str := (p s).getD s

/-- Committed greedy star over a consuming parser, fuelled by input length. -/
def pStar (p : Str → Option Str) : Nat → Str → Str
  | 0, s => s
  | fuel + 1, s =>
    match p s with
    | some r => if r.length < s.length then pStar p fuel r else s
    | none => s

/-- Leftmost match: position, captures, and match length (`re.search`). -/
def rxSearch (m : Str → Option (α × Str)) : Str → Option (Nat × α × Nat)
  | [] =>
    match m [] with
    | some (a, rest) => some (0, a, 0 - rest.length)
    | none => none
  | c :: t =>
    match m (c :: t) with
    | some (a, rest) => some (0, a, (c :: t).length - rest.length)
    | none => (rxSearch m t).map (fun (p, a, l) => (p + 1, a, l))

/-- All non-overlapping matches with absolute positions (`re.finditer`). -/
def rxFindIter (m : Str → Option (α × Str)) : Nat → Nat → Str → List (Nat × α × Nat)
  | 0, _, _ => []
  | fuel + 1, base, s =>
    match rxSearch m s with
    | none => []
    | some (p, a, l) =>
      (base + p, a, l) :: rxFindIter m fuel (base + p + max l 1) (s.drop (p + max l 1))

/-- Non-overlapping replacement of every match by a fixed string (`re.sub`). -/
def rxSub (m : Str → Option Str) (rep : Str) : Nat → Str → Str
  | 0, s => s
  | _ + 1, [] => []
  | fuel + 1, c :: t =>
    match m (c :: t) with
    | some rest => rep ++ rxSub m rep fuel rest
    | none => c :: rxSub m rep fuel t

-- ---------------------------------------------------------------------------
-- Matchers for the regexes in app/formatters/citations.py.
-- Greedy pieces are committed exactly where the surrounding regex can never
-- profit from backtracking (the following character classes are disjoint).
-- ---------------------------------------------------------------------------

/-- `[A-Z][a-z]+` — one capitalized name. -/
def pName (s : Str) : Option Str :=
  match s with
  | c :: r =>
    if isUp c then
      match r with
      | d :: r2 => if isLo d then some (r2.dropWhile isLo) else none
      | [] => none
    else none
  | [] => none

/-- `\s(?:&|and)\s[A-Z][a-z]+` — one connector-joined extra name. -/
def pConnector (s : Str) : Option Str := do
  let r ← pCl isWs s
  let r ← (pCh '&' r).orElse (fun _ => pLit (str "and") r)
  let r ← pCl isWs r
  pName r

/-- `(?:\set\sal\.)?` — optional " et al." (dot required), committed. -/
def pEtAlDot (s : Str) : Str :=
  (do
    let r ← pCl isWs s
    let r ← pLit (str "et") r
    let r ← pCl isWs r
    pLit (str "al.") r).getD s

/-- `(?:\set\sal\.?)?` — optional " et al" with optional dot, committed. -/
def pEtAlOptDot (s : Str) : Str :=
  (do
    let r ← pCl isWs s
    let r ← pLit (str "et") r
    let r ← pCl isWs r
    let r ← pLit (str "al") r
    pure (pOpt (pCh '.') r)).getD s

/-- Author group 1 of `AUTHOR_YEAR_RE` / `INDIVIDUAL_AUTHOR_YEAR_RE`:
`[A-Z][a-z]+(?:\s(?:&|and)\s[A-Z][a-z]+)*(?:\set\sal\.)?` with its capture. -/
def pAuthorGroup (s0 : Str) : Option (Str × Str) := do
  let r ← pName s0
  let r := pStar pConnector r.length r
  let r := pEtAlDot r
  pure (s0.take (s0.length - r.length), r)

/-- `(\d{4}[a-z]?)` — year capture (greedy optional letter). -/
def pYear (s : Str) : Option (Str × Str) := do
  let (d, r) ← pExact isDig 4 s
  match r with
  | c :: r2 => if isLo c then pure (d ++ [c], r2) else pure (d, r)
  | [] => pure (d, r)

/-- `,?\s*` between the author group and the year. -/
def pCommaWs (s : Str) : Str := (pOpt (pCh ',') s).dropWhile isWs

/-- `AUTHOR_YEAR_RE`: `\((author),?\s*(\d{4}[a-z]?)\)`. -/
def rxAuthorYear (s0 : Str) : Option ((Str × Str) × Str) := do
  let r ← pCh '(' s0
  let (a, r) ← pAuthorGroup r
  let r := pCommaWs r
  let (y, r) ← pYear r
  let r ← pCh ')' r
  pure ((a, y), r)

/-- `INDIVIDUAL_AUTHOR_YEAR_RE`: the same without the parentheses. -/
def rxIndividual (s0 : Str) : Option ((Str × Str) × Str) := do
  let (a, r) ← pAuthorGroup s0
  let r := pCommaWs r
  let (y, r) ← pYear r
  pure ((a, y), r)

/-- One `;`-joined member inside `MULTI_AUTHOR_YEAR_RE`:
`\s*;\s*[A-Z][a-z]+(?:\s(?:&|and)\s[A-Z][a-z]+)*(?:\set\sal\.?)?,?\s*\d{4}[a-z]?`. -/
def pMultiItem (s : Str) : Option Str := do
  let r := s.dropWhile isWs
  let r ← pCh ';' r
  let r := r.dropWhile isWs
  let r ← pName r
  let r := pStar pConnector r.length r
  let r := pEtAlOptDot r
  let r := pCommaWs r
  let (_, r) ← pYear r
  pure r

/-- `MULTI_AUTHOR_YEAR_RE`: a parenthesized group with at least two members. -/
def rxMulti (s0 : Str) : Option (Unit × Str) := do
  let r ← pCh '(' s0
  let (_, r) ← pAuthorGroup r
  let r := pCommaWs r
  let (_, r) ← pYear r
  let r ← pMultiItem r
  let r := pStar pMultiItem r.length r
  let r ← pCh ')' r
  pure ((), r)

/-- `\s*[,;\-]\s*\d+` — one further list item inside a numeric bracket. -/
def pNumItem (s : Str) : Option Str := do
  let r := s.dropWhile isWs
  let r ← pCl (fun c => c = ',' || c = ';' || c = '-') r
  let r := r.dropWhile isWs
  let (_, r) ← pMany1 isDig r
  pure r

/-- `NUMERIC_BRACKET_RE`: `\[(\d+(?:\s*[,;\-]\s*\d+)*)\]`, capturing group 1. -/
def rxNumericBracket (s0 : Str) : Option (Str × Str) := do
  let r ← pCh '[' s0
  let (_, r1) ← pMany1 isDig r
  let r2 := pStar pNumItem r1.length r1
  let r3 ← pCh ']' r2
  pure ((s0.drop 1).take (r.length - r2.length), r3)

/-- `SUPERSCRIPT_NUM_RE` (`^(\d+(?:\s*[,;\-]\s*\d+)*)$`) applied by `search`
to a stripped string: an anchored full match. -/
def supNumMatch (t : Str) : Bool :=
  match (do
    let (_, r) ← pMany1 isDig t
    pure (pStar pNumItem r.length r)) with
  | some r => r.isEmpty
  | none => false

-- ---------------------------------------------------------------------------
-- Data model: runs, paragraphs, documents (python-docx abstraction).
-- ---------------------------------------------------------------------------

/-- Character formatting attributes of a run (`run.font`). -/
structure Fmt where
  name : Option Str := none
  size : Option ℚ := none
  bold : Option Bool := none
  italic : Option Bool := none
  superscript : Option Bool := none
deriving DecidableEq, Repr, Inhabited

/-- A run: a maximal span of uniformly formatted text. -/
structure Run where
  text : Str := []
  fmt : Fmt := {}
deriving DecidableEq, Repr, Inhabited

/-- A paragraph: style label, ordered runs, and paragraph-format fields
(`left_indent` / `first_line_indent`, stored as EMU-valued rationals). -/
structure Para where
  style : Str := str "Normal"
  runs : List Run := []
  leftIndent : Option ℚ := none
  firstLineIndent : Option ℚ := none
deriving DecidableEq, Repr, Inhabited

/-- `docx.shared.Inches` (EMU value). -/
def inchesEmu (x : ℚ) : ℚ := 914400 * x

/-- `docx.shared.Pt` (EMU-free point value as used for font sizes). -/
def ptEmu (x : ℚ) : ℚ := 12700 * x

/-- Insert an element at a position (append when past the end). -/
def insIdx : Nat → Run → List Run → List Run
  | 0, r, xs => r :: xs
  | _ + 1, r, [] => [r]
  | n + 1, r, x :: xs => x :: insIdx n r xs

-- ---------------------------------------------------------------------------
-- app/core/document_parser.py
-- ---------------------------------------------------------------------------

/-- `merge_paragraph_runs`: concatenation of the run texts. -/
def merge_paragraph_runs (p : Para) : Str := (p.runs.map Run.text).flatten

/-- Flattened text of a bare run list (used by `replace_in_runs`). -/
def flattenRuns (rs : List Run) : Str := (rs.map Run.text).flatten

/-- Tail of `^\d+(?:\.\d+)*[\.\)]\s*` after the leading digits, with the
backtracking the regex engine performs when the closing `[\.\)]` fails
after a greedy `(?:\.\d+)*` run. -/
def shnTail : Nat → Str → Option Str
  | 0, s => (do
      let r ← pCl (fun c => c = '.' || c = ')') s
      pure (r.dropWhile isWs))
  | fuel + 1, s =>
    ((do
      let r ← pCh '.' s
      let (_, r2) ← pMany1 isDig r
      shnTail fuel r2).orElse (fun _ => do
        let r ← pCl (fun c => c = '.' || c = ')') s
        pure (r.dropWhile isWs)))

/-- `strip_heading_number`: strip a leading `1.` / `1.2.` / `1)` prefix
from the stripped text. -/
def strip_heading_number (t : Str) : Str :=
  let t := stripStr t
  match (do
    let (_, r) ← pMany1 isDig t
    shnTail t.length r) with
  | some rest => rest
  | none => t

/-- `get_heading_level`: parse a style label `Heading N`. -/
def get_heading_level (p : Para) : Option Nat := do
  let r ← pLit (str "Heading") p.style
  let r2 ← pCl isWs r
  let r2 := r2.dropWhile isWs
  let (d, r3) ← pMany1 isDig r2
  if r3.isEmpty then pure (strToNat d) else none

/-- One collected section record of `get_all_sections`. -/
structure Section where
  heading : Str
  level : Nat
  start : Nat
  fin : Nat
deriving DecidableEq, Repr

/-- First pass of `get_all_sections`: heading paragraphs with placeholder
ends (`len(paragraphs)`). -/
def rawSections : Nat → List Para → List (Str × Nat × Nat)
  | _, [] => []
  | i, p :: rest =>
    match get_heading_level p with
    | some l => (merge_paragraph_runs p, l, i) :: rawSections (i + 1) rest
    | none => rawSections (i + 1) rest

/-- Second pass: patch each section's end to the next section's start. -/
def patchEnds (total : Nat) : List (Str × Nat × Nat) → List Section
  | [] => []
  | [(h, l, st)] => [⟨h, l, st, total⟩]
  | (h, l, st) :: (h2, l2, st2) :: rest =>
    ⟨h, l, st, st2⟩ :: patchEnds total ((h2, l2, st2) :: rest)

/-- `get_all_sections`. -/
def get_all_sections (doc : List Para) : List Section :=
  patchEnds doc.length (rawSections 0 doc)

/-- `find_section_by_heading`: first heading (normalized) in the caller's
vocabulary wins. -/
def find_section_by_heading (doc : List Para) (headingTexts : List Str) :
    Option (Nat × Nat) :=
  let normalised := headingTexts.map (fun t => lowerStr (stripStr t))
  (get_all_sections doc).findSome? (fun s =>
    if normalised.contains (lowerStr (strip_heading_number s.heading)) then
      some (s.start, s.fin)
    else none)

-- ---------------------------------------------------------------------------
-- app/formatters/citations.py — detection
-- ---------------------------------------------------------------------------

inductive Style
  | author_year
  | numeric_bracket
  | superscript
deriving DecidableEq, Repr

/-- Name of a style (Python string constants). -/
def styleName : Style → Str
  | .author_year => str "author_year"
  | .numeric_bracket => str "numeric_bracket"
  | .superscript => str "superscript"

/-- Does a paragraph text contain an author-year citation
(`AUTHOR_YEAR_RE.search(text) or MULTI_AUTHOR_YEAR_RE.search(text)`)? -/
def ayHit (p : Para) : Bool :=
  (rxSearch rxAuthorYear (merge_paragraph_runs p)).isSome
    || (rxSearch rxMulti (merge_paragraph_runs p)).isSome

/-- `NUMERIC_BRACKET_RE.search(text)`. -/
def nbHit (p : Para) : Bool :=
  (rxSearch rxNumericBracket (merge_paragraph_runs p)).isSome

/-- A run that counts as a superscript citation:
`run.font.superscript and SUPERSCRIPT_NUM_RE.search(run.text.strip())`. -/
def isSupCitRun (r : Run) : Bool :=
  r.fmt.superscript = some true && supNumMatch (stripStr r.text)

/-- Does the paragraph contain a superscript digit run? -/
def supHit (p : Para) : Bool := p.runs.any isSupCitRun

/-- Main tally loop of `detect_input_style`: walks paragraphs, skips
headings, breaks after 20 body paragraphs, counts at most one
author-year and one numeric-bracket hit per paragraph. -/
def detectLoop : List Para → Nat → Nat → Nat → Nat × Nat
  | [], _, cay, cnb => (cay, cnb)
  | p :: rest, seen, cay, cnb =>
    if (get_heading_level p).isSome then detectLoop rest seen cay cnb
    else if seen + 1 > 20 then (cay, cnb)
    else
      detectLoop rest (seen + 1)
        (if ayHit p then cay + 1 else cay)
        (if nbHit p then cnb + 1 else cnb)

/-- `_count_superscript_citations` (limit 20). -/
def _count_superscript_citations : List Para → Nat → Nat → Nat
  | [], _, count => count
  | p :: rest, seen, count =>
    if (get_heading_level p).isSome then
      _count_superscript_citations rest seen count
    else if seen + 1 > 20 then count
    else
      _count_superscript_citations rest (seen + 1)
        (if supHit p then count + 1 else count)

/-- `max(STYLE_NAMES, key=lambda s: counts[s])`: Python `max` keeps the
first element attaining the maximum. -/
def pyMaxStyle (cay cnb csup : Nat) : Style :=
  let bv : Style × Nat := (.author_year, cay)
  let bv : Style × Nat := if cnb > bv.2 then (.numeric_bracket, cnb) else bv
  let bv : Style × Nat := if csup > bv.2 then (.superscript, csup) else bv
  bv.1

/-- `detect_input_style`. -/
def detect_input_style (doc : List Para) : Style :=
  let c := detectLoop doc 0 0 0
  let csup := _count_superscript_citations doc 0 0
  pyMaxStyle c.1 c.2 csup

-- ---------------------------------------------------------------------------
-- Extraction
-- ---------------------------------------------------------------------------

/-- One citation occurrence (`extract_citations` result dict). -/
structure Cit where
  para_idx : Nat
  match_text : Str
  author : Option Str := none
  year : Option Str := none
  numbers : Option (List Nat) := none
  is_multi : Bool := false
deriving DecidableEq, Repr, Inhabited

/-- `_parse_numeric_list` split on `[,;]\s*` (fuelled `re.split`). -/
def splitNumAux : Nat → Str → Str → List Str
  | 0, acc, _ => [acc.reverse]
  | _ + 1, acc, [] => [acc.reverse]
  | fuel + 1, acc, c :: t =>
    if c = ',' || c = ';' then
      acc.reverse :: splitNumAux fuel [] (t.dropWhile isWs)
    else
      splitNumAux fuel (c :: acc) t

/-- `re.match(r'(\d+)\s*-\s*(\d+)', part)` — anchored, trailing junk allowed. -/
def rangeMatch (part : Str) : Option (Nat × Nat) := do
  let (d1, r) ← pMany1 isDig part
  let r := r.dropWhile isWs
  let r ← pCh '-' r
  let r := r.dropWhile isWs
  let (d2, _) ← pMany1 isDig r
  pure (strToNat d1, strToNat d2)

/-- `_parse_numeric_list`: expand a `'1, 3-5, 7'`-style list. -/
def _parse_numeric_list (text : Str) : List Nat :=
  (splitNumAux (text.length + 1) [] text).foldl (fun nums part =>
    let part := stripStr part
    match rangeMatch part with
    | some (a, b) => nums ++ List.range' a (b + 1 - a)
    | none => if isDigitStr part then nums ++ [strToNat part] else nums) []

/-- Per-paragraph body of `extract_citations`. -/
def extractPara (idx : Nat) (p : Para) (style : Style) : List Cit :=
  if (get_heading_level p).isSome then []
  else
    let text := merge_paragraph_runs p
    match style with
    | .author_year =>
      let multis := rxFindIter rxMulti (text.length + 1) 0 text
      let multiCits := (multis.map (fun m =>
        let full := (text.drop m.1).take m.2.2
        let inner := (full.drop 1).dropLast
        (rxFindIter rxIndividual (inner.length + 1) 0 inner).map (fun im =>
          { para_idx := idx, match_text := full, author := some im.2.1.1,
            year := some im.2.1.2, is_multi := true : Cit }))).flatten
      let spans := multis.map (fun m => (m.1, m.1 + m.2.2))
      let singles := (rxFindIter rxAuthorYear (text.length + 1) 0 text).filterMap
        (fun m =>
          if spans.any (fun sp => sp.1 ≤ m.1 && m.1 + m.2.2 ≤ sp.2) then none
          else some { para_idx := idx, match_text := (text.drop m.1).take m.2.2,
                      author := some m.2.1.1, year := some m.2.1.2 : Cit })
      multiCits ++ singles
    | .numeric_bracket =>
      (rxFindIter rxNumericBracket (text.length + 1) 0 text).map (fun m =>
        { para_idx := idx, match_text := (text.drop m.1).take m.2.2,
          numbers := some (_parse_numeric_list m.2.1) : Cit })
    | .superscript =>
      p.runs.filterMap (fun r =>
        if isSupCitRun r then
          some { para_idx := idx, match_text := r.text,
                 numbers := some (_parse_numeric_list (stripStr r.text)) : Cit }
        else none)

/-- `extract_citations`: full-document scan keyed by the style. -/
def extractAux (style : Style) : Nat → List Para → List Cit
  | _, [] => []
  | i, p :: rest => extractPara i p style ++ extractAux style (i + 1) rest

def extract_citations (doc : List Para) (style : Style) : List Cit :=
  extractAux style 0 doc

-- ---------------------------------------------------------------------------
-- Citation map (insertion-ordered association lists model Python dicts)
-- ---------------------------------------------------------------------------

/-- First value bound to a key in an insertion-ordered association list. -/
def assocLookup (m : List (Str × Nat)) (k : Str) : Option Nat :=
  (m.find? (fun e => e.1 = k)).map (·.2)

def ayLookup (m : List ((Option Str × Option Str) × Nat))
    (k : Option Str × Option Str) : Option Nat :=
  (m.find? (fun e => e.1 = k)).map (·.2)

/-- Python dict assignment: update in place when present, else append. -/
def assocSet (m : List (Str × Nat)) (k : Str) (v : Nat) : List (Str × Nat) :=
  if (m.find? (fun e => e.1 = k)).isSome then
    m.map (fun e => if e.1 = k then (e.1, v) else e)
  else m ++ [(k, v)]

/-- Main loop of `build_citation_map`. -/
def bcmLoop : List Cit → List (Str × Nat) →
    List ((Option Str × Option Str) × Nat) → Nat → List (Str × Nat)
  | [], cmap, _, _ => cmap
  | c :: rest, cmap, ctr, cur =>
    if (assocLookup cmap c.match_text).isSome then bcmLoop rest cmap ctr cur
    else
      let ay := (c.author, c.year)
      if ay ≠ (none, none) then
        match ayLookup ctr ay with
        | some n => bcmLoop rest (cmap ++ [(c.match_text, n)]) ctr cur
        | none =>
          bcmLoop rest (cmap ++ [(c.match_text, cur)]) (ctr ++ [(ay, cur)]) (cur + 1)
      else
        match c.numbers with
        | some (n :: _) => bcmLoop rest (cmap ++ [(c.match_text, n)]) ctr cur
        | _ => bcmLoop rest (cmap ++ [(c.match_text, cur)]) ctr (cur + 1)

/-- `build_citation_map`: literal text → assigned identifier. -/
def build_citation_map (citations : List Cit) (target_style : Style) :
    List (Str × Nat) :=
  if target_style = .numeric_bracket || target_style = .superscript then
    bcmLoop citations [] [] 1
  else []

-- ---------------------------------------------------------------------------
-- Run-level replacement (`replace_in_runs`, `_insert_run_after`)
-- ---------------------------------------------------------------------------

/-- Per-run `[start, end)` offset table. -/
def runBounds : Nat → List Run → List (Nat × Nat)
  | _, [] => []
  | off, r :: rs => (off, off + r.text.length) :: runBounds (off + r.text.length) rs

/-- Indices of runs overlapping `[start, fin)` (in order). -/
def overlapScan : List (Nat × Nat) → Nat → Nat → Nat → List Nat
  | [], _, _, _ => []
  | (rs2, re2) :: bs, i, start, fin =>
    (if rs2 < fin && start < re2 then [i] else []) ++ overlapScan bs (i + 1) start fin

/-- `_insert_run_after`: inserts a new run after `run_idx`, deep-copying the
run element at `run_idx` (the `ref_run` argument is unused in the source —
formatting is taken from `runs[run_idx]`, not from `ref_run`). -/
def _insert_run_after (rs : List Run) (run_idx : Nat) (text : Str) (_ref : Run) :
    List Run :=
  insIdx (run_idx + 1) ⟨text, (rs.getD run_idx default).fmt⟩ rs

/-- `new_run.font.superscript = True`. -/
def forceSup (rs : List Run) (i : Nat) : List Run :=
  rs.set i { rs.getD i default with
             fmt := { (rs.getD i default).fmt with superscript := some true } }

/-- `runs[i].text = t`. -/
def setRunText (rs : List Run) (i : Nat) (t : Str) : List Run :=
  rs.set i { rs.getD i default with text := t }

/-- `replace_in_runs`: find `old_text` in the flattened paragraph text and
splice `new_text` into the overlapped runs. -/
def replace_in_runs (p : Para) (old_text new_text : Str) (superscript : Bool) :
    Bool × Para :=
  let runs := p.runs
  if runs.isEmpty then (false, p)
  else
    let full_text := flattenRuns runs
    match findSub full_text old_text with
    | none => (false, p)
    | some start =>
      let fin := start + old_text.length
      let bounds := runBounds 0 runs
      let ov := overlapScan bounds 0 start fin
      match ov.head?, ov.getLast? with
      | some firstIdx, some lastIdx =>
        let ref_run := runs.getD firstIdx default
        let spanStart := (bounds.getD firstIdx (0, 0)).1
        let spanEnd := (bounds.getD lastIdx (0, 0)).2
        let before_text := (full_text.drop spanStart).take (start - spanStart)
        let after_text := (full_text.drop fin).take (spanEnd - fin)
        if firstIdx = lastIdx then
          let rs1 := setRunText runs firstIdx before_text
          let rs2 := _insert_run_after rs1 firstIdx new_text ref_run
          let rs3 := if superscript then forceSup rs2 (firstIdx + 1) else rs2
          let rs4 :=
            if !after_text.isEmpty then
              _insert_run_after rs3 (firstIdx + 1) after_text ref_run
            else rs3
          (true, { p with runs := rs4 })
        else
          let rs1 := setRunText runs firstIdx before_text
          let rs2 := _insert_run_after rs1 firstIdx new_text ref_run
          let rs3 := if superscript then forceSup rs2 (firstIdx + 1) else rs2
          let rs4 := (List.range' (firstIdx + 2) ((lastIdx + 2) - (firstIdx + 2))).foldl
            (fun acc i => if i < acc.length then setRunText acc i [] else acc) rs3
          let rs5 :=
            if lastIdx + 1 < rs4.length then setRunText rs4 (lastIdx + 1) after_text
            else rs4
          (true, { p with runs := rs5 })
      | _, _ => (false, p)

-- ---------------------------------------------------------------------------
-- apply_citations
-- ---------------------------------------------------------------------------

/-- `config["citation_style"]`. -/
structure CitCfg where
  type : Style
  format : Str
  sort : Str
deriving Repr

structure CitResult where
  warnings : List Str
  citations_found : Nat
  citations_reformatted : Nat
  doc : List Para
deriving DecidableEq, Repr

/-- Both `_format_numeric_bracket` and `_format_superscript` are
`fmt.format(num=num)`. -/
def _format_numeric_bracket (num : Nat) (fmt : Str) : Str :=
  strReplace fmt (str "{num}") (natToStr num)

def _format_superscript (num : Nat) (fmt : Str) : Str :=
  strReplace fmt (str "{num}") (natToStr num)

def alreadyMsg (t : Style) : Str :=
  str "Document already uses " ++ [squote] ++ styleName t ++ [squote]
    ++ str " citation style; no changes made."

def noCitationsMsg : Str := str "No citations detected in the document."

def infeasNumericMsg : Str :=
  str "Cannot reliably convert numeric citations to author-year format without reference metadata. Citations left unchanged."

def infeasSuperMsg : Str :=
  str "Cannot reliably convert superscript citations to author-year format without reference metadata. Citations left unchanged."

def multiFailMsg (old : Str) : Str :=
  str "Could not replace multi-citation " ++ [squote] ++ old ++ [squote]
    ++ str "; left unchanged."

def mapFailMsg (old : Str) : Str :=
  str "Could not map citation " ++ [squote] ++ old ++ [squote]
    ++ str "; left unchanged."

def supLocFailMsg (old : Str) : Str :=
  str "Could not locate superscript run for " ++ [squote] ++ old ++ [squote]
    ++ str "; left unchanged."

def runFailMsg (old : Str) : Str :=
  str "Could not replace citation " ++ [squote] ++ old ++ [squote]
    ++ str " at run level; left unchanged."

/-- Python `a in k` substring containment. -/
def isSubOf (needle hay : Str) : Bool := (findSub hay needle).isSome

/-- Python `f"{o}"` on an optional string. -/
def pyShow : Option Str → Str
  | some a => a
  | none => str "None"

/-- Lexicographic `≤` on strings (Python string comparison). -/
def strLe : Str → Str → Bool
  | [], _ => true
  | _ :: _, [] => false
  | a :: as2, b :: bs2 => if a = b then strLe as2 bs2 else decide (a < b)

/-- Stable insertion into a sorted list (`le y x` keeps `y` in front). -/
def insSorted (le : α → α → Bool) (x : α) : List α → List α
  | [] => [x]
  | y :: ys => if le y x then y :: insSorted le x ys else x :: y :: ys

/-- Stable sort (Python `sorted`). -/
def insSortBy (le : α → α → Bool) (l : List α) : List α :=
  l.foldl (fun acc x => insSorted le x acc) []

/-- Alphabetical re-keying (step 5.5 of `apply_citations`). -/
def alphaOverride (citations : List Cit) (cmap : List (Str × Nat)) :
    List (Str × Nat) :=
  let pairs := (citations.filterMap (fun c =>
      match c.author with
      | some a => if !a.isEmpty then some ((some a : Option Str), c.year) else none
      | none => none)).dedup
  let sortedPairs := insSortBy (fun p q =>
      let ka := lowerStr (p.1.getD [])
      let kb := lowerStr (q.1.getD [])
      if ka = kb then strLe (p.2.getD []) (q.2.getD []) else strLe ka kb) pairs
  citations.foldl (fun cm c =>
    match sortedPairs.findIdx? (· = (c.author, c.year)) with
    | some i => assocSet cm c.match_text (i + 1)
    | none => cm) cmap

/-- `by_para`: group citations by paragraph index (insertion order). -/
def groupByPara (citations : List Cit) : List (Nat × List Cit) :=
  citations.foldl (fun acc c =>
    if acc.any (fun g => g.1 = c.para_idx) then
      acc.map (fun g => if g.1 = c.para_idx then (g.1, g.2 ++ [c]) else g)
    else acc ++ [(c.para_idx, [c])]) []

/-- Numbers gathered for one multi-citation group (the three-step lookup in
`apply_citations`: by literal, by `f"({author}, {year})"`, then the first
map entry whose key contains both the author and the year). -/
def multiNums (paraCits : List Cit) (old : Str) (cmap : List (Str × Nat)) :
    List Nat :=
  paraCits.foldl (fun acc c =>
    if c.is_multi && c.match_text = old then
      let n0 := assocLookup cmap c.match_text
      let ayKeyStr := str "(" ++ pyShow c.author ++ str ", " ++ pyShow c.year ++ str ")"
      let n1 := match assocLookup cmap ayKeyStr with
        | some v => some v
        | none => n0
      let n2 := match cmap.find? (fun kv =>
          (match c.author with
           | some a => !a.isEmpty && isSubOf a kv.1
           | none => false) &&
          (match c.year with
           | some y => !y.isEmpty && isSubOf y kv.1
           | none => false)) with
        | some kv => some kv.2
        | none => n1
      match n2 with
      | some n => acc ++ [n]
      | none => acc
    else acc) []

/-- Replace the text of the first matching superscript run (conversion away
from a superscript source). -/
def replaceSupRun (newText old : Str) (useSup : Bool) : List Run → Bool × List Run
  | [] => (false, [])
  | r :: rest =>
    if r.fmt.superscript = some true && stripStr r.text = stripStr old then
      (true,
        { r with text := newText,
                 fmt := if useSup then r.fmt
                        else { r.fmt with superscript := some false } } :: rest)
    else
      let (b, rs) := replaceSupRun newText old useSup rest
      (b, r :: rs)

/-- Per-paragraph mutable state while replacing citations. -/
structure ParaState where
  para : Para
  warnings : List Str
  reformatted : Nat
  replacedMulti : List (Nat × Str)

/-- Body of the inner `for cit in para_cits_sorted` loop. -/
def processCit (inputStyle : Style) (useSup : Bool) (targetFmt : Str)
    (cmap : List (Str × Nat)) (paraIdx : Nat) (paraCits : List Cit)
    (st : ParaState) (c : Cit) : ParaState :=
  let old := c.match_text
  if c.is_multi then
    if st.replacedMulti.contains (paraIdx, old) then st
    else
      let st := { st with replacedMulti := st.replacedMulti ++ [(paraIdx, old)] }
      let nums := multiNums paraCits old cmap
      if !nums.isEmpty then
        let newText :=
          if useSup then joinNums (str ",") nums
          else strReplace targetFmt (str "{num}") (joinNums (str ", ") nums)
        let res := replace_in_runs st.para old newText useSup
        if res.1 then
          { st with para := res.2, reformatted := st.reformatted + nums.length }
        else
          { st with para := res.2, warnings := st.warnings ++ [multiFailMsg old] }
      else st
  else
    match assocLookup cmap old with
    | none => { st with warnings := st.warnings ++ [mapFailMsg old] }
    | some n =>
      let newText :=
        if useSup then _format_superscript n targetFmt
        else _format_numeric_bracket n targetFmt
      if inputStyle = .superscript then
        let res := replaceSupRun newText old useSup st.para.runs
        if res.1 then
          { st with para := { st.para with runs := res.2 },
                    reformatted := st.reformatted + 1 }
        else
          { st with para := { st.para with runs := res.2 },
                    warnings := st.warnings ++ [supLocFailMsg old] }
      else
        let res := replace_in_runs st.para old newText useSup
        if res.1 then
          { st with para := res.2, reformatted := st.reformatted + 1 }
        else
          { st with para := res.2, warnings := st.warnings ++ [runFailMsg old] }

/-- The outer `for para_idx, para_cits in by_para.items()` loop. -/
def paraPass (inputStyle : Style) (useSup : Bool) (targetFmt : Str)
    (cmap : List (Str × Nat)) :
    List (Nat × List Cit) → List Para → List Str → Nat → List (Nat × Str) →
    List Para × List Str × Nat
  | [], doc, w, reformatted, _ => (doc, w, reformatted)
  | (pidx, pcits) :: rest, doc, w, reformatted, rm =>
    let para := doc.getD pidx default
    let fullText := merge_paragraph_runs para
    let sortedCits := insSortBy (fun a b =>
      decide (rfindSub fullText b.match_text ≤ rfindSub fullText a.match_text)) pcits
    let st := sortedCits.foldl
      (processCit inputStyle useSup targetFmt cmap pidx pcits)
      ⟨para, w, reformatted, rm⟩
    paraPass inputStyle useSup targetFmt cmap rest (doc.set pidx st.para)
      st.warnings st.reformatted st.replacedMulti

/-- `apply_citations`: detect the input style and convert to the target. -/
def apply_citations (doc : List Para) (cfg : CitCfg) : CitResult :=
  let targetType := cfg.type
  let targetFmt := cfg.format
  let targetSort := cfg.sort
  let inputStyle := detect_input_style doc
  if inputStyle = targetType then
    let citations := extract_citations doc inputStyle
    ⟨[alreadyMsg targetType], citations.length, 0, doc⟩
  else
    let citations := extract_citations doc inputStyle
    if citations.isEmpty then ⟨[noCitationsMsg], citations.length, 0, doc⟩
    else if inputStyle = .numeric_bracket && targetType = .author_year then
      ⟨[infeasNumericMsg], citations.length, 0, doc⟩
    else if inputStyle = .superscript && targetType = .author_year then
      ⟨[infeasSuperMsg], citations.length, 0, doc⟩
    else
      let citMap := build_citation_map citations targetType
      let citMap :=
        if targetSort = str "alphabetical" && inputStyle = .author_year
            && (targetType = .numeric_bracket || targetType = .superscript) then
          alphaOverride citations citMap
        else citMap
      let byPara := groupByPara citations
      let useSup := targetType = .superscript
      let res := paraPass inputStyle useSup targetFmt citMap byPara doc [] 0 []
      ⟨res.2.1, citations.length, res.2.2, res.1⟩

-- ---------------------------------------------------------------------------
-- app/formatters/references.py — regex matchers
-- ---------------------------------------------------------------------------

/-- `_DOI_RE`: `(?:doi:\s*|https?://doi\.org/)(\S+)` (IGNORECASE). -/
def rxDoi (s0 : Str) : Option (Str × Str) := do
  let r ← (do
      let r ← pLitCI (str "doi:") s0
      pure (r.dropWhile isWs)).orElse (fun _ => do
      let r ← pLitCI (str "http") s0
      let r := (pChCI 's' r).getD r
      pLitCI (str "://doi.org/") r)
  let (g, r2) ← pMany1 (fun c => !isWs c) r
  pure (g, r2)

/-- `_YEAR_PAREN_RE`: `\((\d{4}[a-z]?)\)`. -/
def rxYearParen (s0 : Str) : Option (Str × Str) := do
  let r ← pCh '(' s0
  let (y, r) ← pYear r
  let r ← pCh ')' r
  pure (y, r)

/-- `_YEAR_PLAIN_RE`: `(\d{4}[a-z]?)\.`. -/
def rxYearPlain (s0 : Str) : Option (Str × Str) := do
  let (y, r) ← pYear s0
  let r ← pCh '.' r
  pure (y, r)

/-- Page-list character class `[\d\-–]`. -/
def isPagesCh (c : Char) : Bool := isDig c || c = '-' || c = '–'

/-- `_VOL_ISSUE_PAGES_RE`: `(\d+)\s*\((\d+)\)\s*[,:]\s*([\d\-–]+)`. -/
def rxVolIssuePages (s0 : Str) : Option ((Str × Str × Str) × Str) := do
  let (v, r) ← pMany1 isDig s0
  let r := r.dropWhile isWs
  let r ← pCh '(' r
  let (i, r) ← pMany1 isDig r
  let r ← pCh ')' r
  let r := r.dropWhile isWs
  let r ← pCl (fun c => c = ',' || c = ':') r
  let r := r.dropWhile isWs
  let (pg, r) ← pMany1 isPagesCh r
  pure ((v, i, pg), r)

/-- `_VOL_PAGES_RE`: `(\d+)\s*[,:]\s*([\d\-–]+)`. -/
def rxVolPages (s0 : Str) : Option ((Str × Str) × Str) := do
  let (v, r) ← pMany1 isDig s0
  let r := r.dropWhile isWs
  let r ← pCl (fun c => c = ',' || c = ':') r
  let r := r.dropWhile isWs
  let (pg, r) ← pMany1 isPagesCh r
  pure ((v, pg), r)

/-- `_NUMBER_PREFIX_RE.sub("", ...)`: strip a leading `1.` / `1)` / `[1]`
enumeration mark (`^\s*(?:\[?\d+[\].)]\s*)`). -/
def subNumberMark (s0 : Str) : Str :=
  match (do
    let r := s0.dropWhile isWs
    let r := (pCh '[' r).getD r
    let (_, r) ← pMany1 isDig r
    let r ← pCl (fun c => c = ']' || c = '.' || c = ')') r
    pure (r.dropWhile isWs)) with
  | some r => r
  | none => s0

/-- `re.split(r'(?<=[a-z\?\!])\.\s+', pre_vol, maxsplit=1)`: split at the
first period preceded by a lowercase letter / `?` / `!` and followed by
whitespace, removing the period and the whitespace run. -/
def splitTitleJournal : Str → Option (Str × Str)
  | [] => none
  | [_] => none
  | a :: b :: t =>
    if (isLo a || a = '?' || a = '!') && b = '.' && (t.headD 'x' |> isWs) then
      some ([a], t.dropWhile isWs)
    else
      (splitTitleJournal (b :: t)).map (fun (x, y) => (a :: x, y))

-- ---------------------------------------------------------------------------
-- parse_reference
-- ---------------------------------------------------------------------------

/-- Parsed reference fields (Python dict with up to 8 keys). -/
structure RefFields where
  authors : Option Str := none
  year : Option Str := none
  title : Option Str := none
  journal : Option Str := none
  volume : Option Str := none
  issue : Option Str := none
  pages : Option Str := none
  doi : Option Str := none
deriving DecidableEq, Repr

/-- `len(fields)`. -/
def RefFields.count (f : RefFields) : Nat :=
  [f.authors.isSome, f.year.isSome, f.title.isSome, f.journal.isSome,
   f.volume.isSome, f.issue.isSome, f.pages.isSome, f.doi.isSome].countP id

def isDotComma (c : Char) : Bool := c = '.' || c = ','

def isDotCommaSpace (c : Char) : Bool := c = '.' || c = ',' || c = ' '

/-- `parse_reference`: best-effort parse of a reference line. -/
def parse_reference (text : Str) : Option RefFields :=
  let remaining := stripStr text
  let remaining := stripStr (subNumberMark remaining)
  -- DOI
  let (doiField, remaining) :=
    match rxSearch rxDoi remaining with
    | some (pos, g, len) =>
      (some (rstripCl (fun c => c = '.') g),
       rstripCl (fun c => c = '.')
         (stripStr (remaining.take pos ++ remaining.drop (pos + len))))
    | none => (none, remaining)
  -- Year
  let (yearField, before_year, after_year) :=
    match rxSearch rxYearParen remaining with
    | some (pos, y, len) =>
      (some y, rstripCl isDotComma (stripStr (remaining.take pos)),
       stripStr (lstripCl isDotComma (stripStr (remaining.drop (pos + len)))))
    | none =>
      match rxSearch rxYearPlain remaining with
      | some (pos, y, len) =>
        (some y, rstripCl isDotComma (stripStr (remaining.take pos)),
         stripStr (remaining.drop (pos + len)))
      | none => (none, remaining, [])
  let authorsField := if !before_year.isEmpty then some before_year else none
  -- Volume / issue / pages
  let (volF, issF, pagF, pre_vol) :=
    match rxSearch rxVolIssuePages after_year with
    | some (pos, (v, i, pg), _) =>
      (some v, some i, some pg,
       rstripCl isDotCommaSpace (stripStr (after_year.take pos)))
    | none =>
      match rxSearch rxVolPages after_year with
      | some (pos, (v, pg), _) =>
        (some v, none, some pg,
         rstripCl isDotCommaSpace (stripStr (after_year.take pos)))
      | none => (none, none, none, after_year)
  -- Title / journal
  let (titleF, journalF) :=
    if !pre_vol.isEmpty then
      match splitTitleJournal pre_vol with
      | some (t1, t2) =>
        (some (rstripCl (fun c => c = '.') (stripStr t1)),
         some (rstripCl isDotCommaSpace (stripStr t2)))
      | none =>
        match (pre_vol.reverse.takeWhile (· ≠ ',')).reverse,
            pre_vol.reverse.dropWhile (· ≠ ',') with
        | after2, _ :: beforeRev =>
          if (stripStr after2).length > 2 then
            (some (rstripCl (fun c => c = '.') (stripStr beforeRev.reverse)),
             some (rstripCl isDotCommaSpace (stripStr after2)))
          else (some (rstripCl (fun c => c = '.') (stripStr pre_vol)), none)
        | _, [] => (some (rstripCl (fun c => c = '.') (stripStr pre_vol)), none)
    else (none, none)
  let fields : RefFields :=
    { authors := authorsField, year := yearField, title := titleF,
      journal := journalF, volume := volF, issue := issF, pages := pagF,
      doi := doiField }
  if fields.count < 3 then none else some fields

-- ---------------------------------------------------------------------------
-- format_reference
-- ---------------------------------------------------------------------------

def mTwoCommas (s : Str) : Option Str := do
  let r ← pCh ',' s
  let r := r.dropWhile isWs
  pCh ',' r

def mTwoPeriods (s : Str) : Option Str := do
  let r ← pCh '.' s
  let r := r.dropWhile isWs
  pCh '.' r

def mCommaPeriod (s : Str) : Option Str := do
  let r ← pCh ',' s
  let r := r.dropWhile isWs
  pCh '.' r

def mWsRun2 (s : Str) : Option Str := do
  let r ← pCl isWs s
  let r ← pCl isWs r
  pure (r.dropWhile isWs)

/-- `format_reference`: substitute placeholders, then clean punctuation. -/
def format_reference (fields : RefFields) (template : Str) (number : Nat) : Str :=
  let result := template
  let result := strReplace result (str "{num}") (natToStr number)
  let result := strReplace result (str "{authors}") (fields.authors.getD [])
  let result := strReplace result (str "{year}") (fields.year.getD [])
  let result := strReplace result (str "{title}") (fields.title.getD [])
  let result := strReplace result (str "{journal}") (fields.journal.getD [])
  let result := strReplace result (str "{volume}") (fields.volume.getD [])
  let result := strReplace result (str "{issue}") (fields.issue.getD [])
  let result := strReplace result (str "{pages}") (fields.pages.getD [])
  let result := strReplace result (str "{doi}") (fields.doi.getD [])
  let result := strReplace result (str "()") []
  let result := rxSub mTwoCommas (str ",") (result.length + 1) result
  let result := rxSub mTwoPeriods (str ".") (result.length + 1) result
  let result := rxSub mCommaPeriod (str ".") (result.length + 1) result
  let result := rxSub mWsRun2 (str " ") (result.length + 1) result
  stripStr (rstripCl (fun c => c = ',') (stripStr result))

-- ---------------------------------------------------------------------------
-- apply_references
-- ---------------------------------------------------------------------------

/-- `config["reference_style"]`. -/
structure RefCfg where
  numbering : Str
  format : Str
  hanging_indent : ℚ
  font_size : ℚ

structure RefResult where
  warnings : List Str
  references_found : Nat
  references_reformatted : Nat
  doc : List Para
deriving Repr

/-- The fixed reference-section heading vocabulary (`_REF_HEADINGS`). -/
def refHeadings : List Str :=
  [str "References", str "Bibliography", str "Works Cited",
   str "Literature Cited", str "Citations", str "Reference List",
   str "Cited Literature", str "Literature References"]

/-- `find_references_section`. -/
def find_references_section (doc : List Para) : Option (Nat × Nat) :=
  find_section_by_heading doc refHeadings

def noSectionMsg : Str :=
  str "Could not locate a References / Bibliography section heading. No reference reformatting applied."

/-- Parse-failure warning (entry number plus an 80-character preview). -/
def parseFailMsg (k : Nat) (t : Str) : Str :=
  str "Could not parse reference (entry #" ++ natToStr k ++ str "): "
    ++ [squote] ++ (t.take 80 ++ if t.length > 80 then str "..." else [])
    ++ [squote] ++ str ". Left unchanged."

/-- `_replace_paragraph_text`: all text into the first run, others cleared. -/
def _replace_paragraph_text (p : Para) (new_text : Str) : Para :=
  match p.runs with
  | [] => { p with runs := [{ text := new_text }] }
  | r0 :: rest =>
    { p with runs := { r0 with text := new_text } ::
        rest.map (fun r => { r with text := [] }) }

/-- `_apply_paragraph_formatting`: hanging indent plus uniform font size. -/
def _apply_paragraph_formatting (p : Para) (hanging_indent : ℚ) (font_size : ℚ) :
    Para :=
  { p with
    leftIndent := some (inchesEmu hanging_indent),
    firstLineIndent := some (-(inchesEmu hanging_indent)),
    runs := p.runs.map (fun r =>
      { r with fmt := { r.fmt with size := some (ptEmu font_size) } }) }

/-- Rendered text for a successfully parsed entry, including the numbered
prefix applied when the template lacks `{num}`. -/
def renderedRefText (fields : RefFields) (cfg : RefCfg) (number : Nat) : Str :=
  let new_text := format_reference fields cfg.format number
  if cfg.numbering = str "numbered" && !(isSubOf (str "{num}") cfg.format) then
    natToStr number ++ str ". " ++ new_text
  else new_text

/-- The `for idx in range(entry_start, ref_end)` loop of `apply_references`. -/
def refLoop (cfg : RefCfg) :
    List Nat → List Para → List Str → Nat → Nat → Nat → RefResult
  | [], doc, w, found, reformatted, _ => ⟨w, found, reformatted, doc⟩
  | idx :: rest, doc, w, found, reformatted, number =>
    let para := doc.getD idx default
    let text := stripStr (merge_paragraph_runs para)
    if text.isEmpty then refLoop cfg rest doc w found reformatted number
    else
      let found := found + 1
      match parse_reference text with
      | none =>
        let w := w ++ [parseFailMsg found text]
        let para :=
          _apply_paragraph_formatting para cfg.hanging_indent cfg.font_size
        refLoop cfg rest (doc.set idx para) w found reformatted (number + 1)
      | some fields =>
        let new_text := renderedRefText fields cfg number
        let para := _replace_paragraph_text para new_text
        let para :=
          _apply_paragraph_formatting para cfg.hanging_indent cfg.font_size
        refLoop cfg rest (doc.set idx para) w found (reformatted + 1) (number + 1)

/-- `apply_references`: parse and reformat the reference list. -/
def apply_references (doc : List Para) (cfg : RefCfg) : RefResult :=
  match find_references_section doc with
  | none => ⟨[noSectionMsg], 0, 0, doc⟩
  | some (ref_start, ref_end) =>
    refLoop cfg (List.range' (ref_start + 1) (ref_end - (ref_start + 1)))
      doc [] 0 0 1

-- ---------------------------------------------------------------------------
-- Concrete documents and inputs used by the claim theorems
-- ---------------------------------------------------------------------------

/-- One-paragraph document holding a two-member multi-citation group. -/
def docMulti : List Para :=
  [{ runs := [{ text := str "(Smith, 2020; Jones, 2019)" }] }]

def cfgSupTarget : CitCfg :=
  { type := .superscript, format := str "{num}", sort := str "order_of_appearance" }

/-- `build_citation_map` input with a multi-citation group plus a repeat of
its second member as a standalone citation (as extracted from a document
`"(Smith, 2020; Jones, 2019) and (Jones, 2019)."`). -/
def citsShared : List Cit :=
  [{ para_idx := 0, match_text := str "(Smith, 2020; Jones, 2019)",
     author := some (str "Smith"), year := some (str "2020"), is_multi := true },
   { para_idx := 0, match_text := str "(Smith, 2020; Jones, 2019)",
     author := some (str "Jones"), year := some (str "2019"), is_multi := true },
   { para_idx := 0, match_text := str "(Jones, 2019)",
     author := some (str "Jones"), year := some (str "2019") }]

/-- Single-run paragraph with text on both sides of the citation. -/
def paraSplit : Para := { runs := [{ text := str "a (Smith, 2020) b" }] }

def refLineC6 : Str :=
  str "1. Smith, J. (2020). A study of things. J. Examples. 12(3), 45-67. doi:10.1/xyz"

def tmplC6 : Str :=
  str "{authors} ({year}). {title}. {journal}, {volume}({issue}), {pages}."

-- ---------------------------------------------------------------------------
-- C1
-- ---------------------------------------------------------------------------

/-- C1: converting the paragraph `"(Smith, 2020; Jones, 2019)"` to
superscript produces one spliced replacement run with the superscript flag
set, but its text is `"1,1"`, not the claimed `"1,2"`: `build_citation_map`
deduplicates on the group's shared literal text, so the second member never
receives its own identifier and the group lookup resolves both members to 1. -/
theorem c1_multi_group_splices_one_one :
    ((apply_citations docMulti cfgSupTarget).doc.getD 0 default).runs.map Run.text
        = [[], str "1,1"] ∧
    (((apply_citations docMulti cfgSupTarget).doc.getD 0 default).runs.getD 1
        default).fmt.superscript = some true ∧
    ((apply_citations docMulti cfgSupTarget).doc.getD 0 default).runs.map Run.text
        ≠ [[], str "1,2"] := by decide

-- ---------------------------------------------------------------------------
-- C2
-- ---------------------------------------------------------------------------

/-- C2: two occurrences carrying the identical (author, year) pair
("Jones", "2019") — one inside a multi-citation group, one standalone —
are mapped to the distinct identifiers 1 and 2 by `build_citation_map`,
because the group member is keyed by the group's shared literal whose
identifier was fixed by the first member's pair. -/
theorem c2_equal_pairs_distinct_identifiers :
    (citsShared.getD 1 default).author = (citsShared.getD 2 default).author ∧
    (citsShared.getD 1 default).year = (citsShared.getD 2 default).year ∧
    assocLookup (build_citation_map citsShared .numeric_bracket)
      (citsShared.getD 1 default).match_text = some 1 ∧
    assocLookup (build_citation_map citsShared .numeric_bracket)
      (citsShared.getD 2 default).match_text = some 2 := by decide

-- ---------------------------------------------------------------------------
-- C4
-- ---------------------------------------------------------------------------

/-- C4: splicing `"1"` for `"(Smith, 2020)"` inside the single run
`"a (Smith, 2020) b"` with superscript requested yields the expected three
runs, but the after run `" b"` comes out with `superscript = True` (the
original run had no superscript): `_insert_run_after` copies formatting from
the run at the given index — here the freshly inserted, superscript-forced
replacement run — and ignores its `ref_run` argument. -/
theorem c4_after_run_inherits_superscript :
    (replace_in_runs paraSplit (str "(Smith, 2020)") (str "1") true).1 = true ∧
    (replace_in_runs paraSplit (str "(Smith, 2020)") (str "1") true).2.runs.map
      Run.text = [str "a ", str "1", str " b"] ∧
    ((replace_in_runs paraSplit (str "(Smith, 2020)") (str "1") true).2.runs.getD 2
      default).fmt.superscript = some true ∧
    (paraSplit.runs.getD 0 default).fmt.superscript = none := by decide

-- ---------------------------------------------------------------------------
-- C6
-- ---------------------------------------------------------------------------

/-- C6 counterexample: rendering the parsed reference through the template
does not give the claimed string — the parser's `rstrip(".,")` leaves the
authors as `"Smith, J"` (no trailing period) and the template joins the
journal and volume with a comma, not a period. -/
theorem c6_claimed_rendering_wrong :
    (parse_reference refLineC6).map (fun f => format_reference f tmplC6 1) ≠
      some (str "Smith, J. (2020). A study of things. J. Examples. 12(3), 45-67.") := by
  decide

/-- C6 amended: the actual rendering, with the doi dropped because the
template omits it. -/
theorem c6_actual_rendering :
    (parse_reference refLineC6).map (fun f => format_reference f tmplC6 1) =
      some (str "Smith, J (2020). A study of things. J. Examples, 12(3), 45-67.") := by
  decide

-- ---------------------------------------------------------------------------
-- C9
-- ---------------------------------------------------------------------------

/-- C9: the bracket regex captures `"1, 3-5, 7"` from `"[1, 3-5, 7]"` and
`_parse_numeric_list` expands it to `[1, 3, 4, 5, 7]` in order; duplicates
are preserved. -/
theorem c9_range_expansion :
    rxSearch rxNumericBracket (str "[1, 3-5, 7]") = some (0, str "1, 3-5, 7", 11) ∧
    _parse_numeric_list (str "1, 3-5, 7") = [1, 3, 4, 5, 7] ∧
    _parse_numeric_list (str "2, 2") = [2, 2] := by decide

-- ---------------------------------------------------------------------------
-- C3
-- ---------------------------------------------------------------------------

lemma findSub_none_of_not_infix {hay needle : Str} (h : ¬ needle <:+: hay) :
    findSub hay needle = none := by
  induction hay with
  | nil =>
    rw [findSub, if_neg]
    intro hp
    exact h (List.isPrefixOf_iff_prefix.mp hp).isInfix
  | cons c t ih =>
    rw [findSub, if_neg]
    · rw [ih (fun hi => h (List.infix_cons hi))]
      rfl
    · intro hp
      exact h (List.isPrefixOf_iff_prefix.mp hp).isInfix

/-- C3: when `old_text` does not occur as a substring of the paragraph's
flattened run text, `replace_in_runs` returns `False` and the paragraph —
every run's text and formatting — is left exactly as it was. -/
theorem c3_absent_literal_no_mutation (p : Para) (old_text new_text : Str)
    (superscript : Bool) (h : ¬ old_text <:+: flattenRuns p.runs) :
    replace_in_runs p old_text new_text superscript = (false, p) := by
  rw [replace_in_runs]
  by_cases he : p.runs.isEmpty
  · simp [he]
  · simp [he, findSub_none_of_not_infix h]

def paraHello : Para :=
  { runs := [{ text := str "Hello " }, { text := str "world", fmt := { bold := some true } }] }

theorem c3_witness :
    ¬ (str "xyz") <:+: flattenRuns paraHello.runs ∧
    replace_in_runs paraHello (str "xyz") (str "[1]") false = (false, paraHello) :=
  ⟨by decide, c3_absent_literal_no_mutation paraHello (str "xyz") (str "[1]") false (by decide)⟩

-- ---------------------------------------------------------------------------
-- C5
-- ---------------------------------------------------------------------------

/-- The first 20 non-heading paragraphs of the document. -/
def bodyParas (doc : List Para) : List Para :=
  (doc.filter (fun p => (get_heading_level p).isNone)).take 20

/-- `detect_input_style` as the spec words it: tally one count per
paragraph per style over at most the first 20 non-heading paragraphs,
return the style with the highest tally with ties broken by the priority
order [author_year, numeric_bracket, superscript] (which also yields
author_year when nothing matched). -/
def detect_input_style_spec (doc : List Para) : Style :=
  let cay := (bodyParas doc).countP ayHit
  let cnb := (bodyParas doc).countP nbHit
  let csup := (bodyParas doc).countP supHit
  if cay ≥ cnb ∧ cay ≥ csup then .author_year
  else if cnb ≥ csup then .numeric_bracket
  else .superscript

lemma headingNotNone {p : Para} (hp : (get_heading_level p).isSome = true) :
    ¬((get_heading_level p).isNone = true) := by
  simp [Option.isNone_iff_eq_none, ← Option.not_isSome_iff_eq_none, hp]

lemma headingIsNone {p : Para} (hp : ¬((get_heading_level p).isSome = true)) :
    (get_heading_level p).isNone = true := by
  simp [Option.isNone_iff_eq_none, ← Option.not_isSome_iff_eq_none, hp]

lemma detectLoop_eq (l : List Para) :
    ∀ (seen cay cnb : Nat), seen ≤ 20 →
    detectLoop l seen cay cnb =
      (cay + ((l.filter (fun p => (get_heading_level p).isNone)).take (20 - seen)).countP ayHit,
       cnb + ((l.filter (fun p => (get_heading_level p).isNone)).take (20 - seen)).countP nbHit) := by
  induction l with
  | nil => intro seen cay cnb _; simp [detectLoop]
  | cons p t ih =>
    intro seen cay cnb hseen
    rw [detectLoop]
    by_cases hp : (get_heading_level p).isSome = true
    · rw [if_pos hp, ih seen cay cnb hseen]
      simp [List.filter_cons, headingNotNone hp]
    · rw [if_neg hp]
      by_cases hbig : seen + 1 > 20
      · rw [if_pos hbig]
        have hz : 20 - seen = 0 := by omega
        simp [hz]
      · rw [if_neg hbig, ih (seen + 1) _ _ (by omega)]
        have htake : ((p :: t).filter (fun q => (get_heading_level q).isNone)).take (20 - seen)
            = p :: ((t.filter (fun q => (get_heading_level q).isNone)).take (20 - seen - 1)) := by
          rw [List.filter_cons]
          simp only [headingIsNone hp, if_true]
          rw [List.take_cons (by omega)]
        have h1 : 20 - (seen + 1) = 20 - seen - 1 := by omega
        rw [htake, h1, Prod.mk.injEq]
        refine ⟨?_, ?_⟩
        · rw [List.countP_cons]
          cases hhit : ayHit p <;> simp [hhit] <;> omega
        · rw [List.countP_cons]
          cases hhit : nbHit p <;> simp [hhit] <;> omega

lemma supLoop_eq (l : List Para) :
    ∀ (seen count : Nat), seen ≤ 20 →
    _count_superscript_citations l seen count =
      count + ((l.filter (fun p => (get_heading_level p).isNone)).take (20 - seen)).countP supHit := by
  induction l with
  | nil => intro seen count _; simp [_count_superscript_citations]
  | cons p t ih =>
    intro seen count hseen
    rw [_count_superscript_citations]
    by_cases hp : (get_heading_level p).isSome = true
    · rw [if_pos hp, ih seen count hseen]
      simp [List.filter_cons, headingNotNone hp]
    · rw [if_neg hp]
      by_cases hbig : seen + 1 > 20
      · rw [if_pos hbig]
        have hz : 20 - seen = 0 := by omega
        simp [hz]
      · rw [if_neg hbig, ih (seen + 1) _ (by omega)]
        have htake : ((p :: t).filter (fun q => (get_heading_level q).isNone)).take (20 - seen)
            = p :: ((t.filter (fun q => (get_heading_level q).isNone)).take (20 - seen - 1)) := by
          rw [List.filter_cons]
          simp only [headingIsNone hp, if_true]
          rw [List.take_cons (by omega)]
        have h1 : 20 - (seen + 1) = 20 - seen - 1 := by omega
        rw [htake, h1, List.countP_cons]
        cases hhit : supHit p <;> simp [hhit] <;> omega

lemma pyMaxStyle_eq (a b c : Nat) :
    pyMaxStyle a b c =
      (if a ≥ b ∧ a ≥ c then Style.author_year
       else if b ≥ c then Style.numeric_bracket
       else Style.superscript) := by
  unfold pyMaxStyle
  dsimp only
  by_cases h1 : b > a
  · rw [if_pos h1]
    by_cases h2 : c > b
    · rw [if_pos h2, if_neg (by omega), if_neg (by omega)]
    · rw [if_neg h2, if_neg (by omega), if_pos (by omega)]
  · rw [if_neg h1]
    by_cases h2 : c > a
    · rw [if_pos h2, if_neg (by omega), if_neg (by omega)]
    · rw [if_neg h2, if_pos (by omega)]

theorem c5_detect_matches_spec (doc : List Para) :
    detect_input_style doc = detect_input_style_spec doc := by
  unfold detect_input_style detect_input_style_spec bodyParas
  rw [detectLoop_eq doc 0 0 0 (by omega), supLoop_eq doc 0 0 (by omega)]
  simp only [Nat.sub_zero, Nat.zero_add]
  rw [pyMaxStyle_eq]

-- ---------------------------------------------------------------------------
-- C8
-- ---------------------------------------------------------------------------

/-- `detect_input_style` through the body-paragraph tallies. -/
lemma detect_counts (doc : List Para) :
    detect_input_style doc =
      pyMaxStyle ((bodyParas doc).countP ayHit) ((bodyParas doc).countP nbHit)
        ((bodyParas doc).countP supHit) := by
  unfold detect_input_style bodyParas
  rw [detectLoop_eq doc 0 0 0 (by omega), supLoop_eq doc 0 0 (by omega)]
  simp

lemma detect_nb_pos (doc : List Para)
    (h : detect_input_style doc = .numeric_bracket) :
    0 < (bodyParas doc).countP nbHit := by
  rw [detect_counts doc, pyMaxStyle_eq] at h
  by_cases h1 : (bodyParas doc).countP ayHit ≥ (bodyParas doc).countP nbHit ∧
      (bodyParas doc).countP ayHit ≥ (bodyParas doc).countP supHit
  · rw [if_pos h1] at h; exact absurd h (by simp)
  · rw [if_neg h1] at h
    by_cases h2 : (bodyParas doc).countP nbHit ≥ (bodyParas doc).countP supHit
    · omega
    · rw [if_neg h2] at h
      exact absurd h (by simp)

lemma detect_sup_pos (doc : List Para)
    (h : detect_input_style doc = .superscript) :
    0 < (bodyParas doc).countP supHit := by
  rw [detect_counts doc, pyMaxStyle_eq] at h
  by_cases h1 : (bodyParas doc).countP ayHit ≥ (bodyParas doc).countP nbHit ∧
      (bodyParas doc).countP ayHit ≥ (bodyParas doc).countP supHit
  · rw [if_pos h1] at h; exact absurd h (by simp)
  · rw [if_neg h1] at h
    by_cases h2 : (bodyParas doc).countP nbHit ≥ (bodyParas doc).countP supHit
    · rw [if_pos h2] at h
      exact absurd h (by simp)
    · omega

lemma isSome_of_isNone_false {o : Option Nat} (hb : o.isNone = true) :
    ¬(o.isSome = true) := by
  cases o <;> simp_all

lemma nbExtractPara_ne (i : Nat) (p : Para)
    (hb : (get_heading_level p).isNone = true) (hh : nbHit p = true) :
    extractPara i p .numeric_bracket ≠ [] := by
  unfold extractPara
  rw [if_neg (isSome_of_isNone_false hb)]
  dsimp only
  unfold nbHit at hh
  obtain ⟨x, hx⟩ := Option.isSome_iff_exists.mp hh
  rw [rxFindIter, hx]
  simp

lemma filterMap_ne_nil {α β : Type} (f : α → Option β) {l : List α} {a : α}
    (ha : a ∈ l) (hb : (f a).isSome = true) : l.filterMap f ≠ [] := by
  obtain ⟨b, hb2⟩ := Option.isSome_iff_exists.mp hb
  intro hcon
  have hm : b ∈ l.filterMap f := List.mem_filterMap.mpr ⟨a, ha, hb2⟩
  rw [hcon] at hm
  cases hm

lemma supExtractPara_ne (i : Nat) (p : Para)
    (hb : (get_heading_level p).isNone = true) (hh : supHit p = true) :
    extractPara i p .superscript ≠ [] := by
  unfold extractPara
  rw [if_neg (isSome_of_isNone_false hb)]
  dsimp only
  unfold supHit at hh
  obtain ⟨r, hr, hpred⟩ := List.any_eq_true.mp hh
  exact filterMap_ne_nil _ hr (by simp [hpred])

lemma extractAux_ne {p : Para} {style : Style} :
    ∀ (l : List Para) (i : Nat), p ∈ l →
    (∀ j, extractPara j p style ≠ []) → extractAux style i l ≠ [] := by
  intro l
  induction l with
  | nil => intro i hp; cases hp
  | cons q t ih =>
    intro i hp hne hcon
    rw [extractAux] at hcon
    have h12 : extractPara i q style = [] ∧ extractAux style (i + 1) t = [] := by
      simpa using hcon
    rcases List.mem_cons.mp hp with rfl | hmem
    · exact hne i h12.1
    · exact ih (i + 1) hmem hne h12.2

lemma extract_ne_nil_of_detect_nb (doc : List Para)
    (h : detect_input_style doc = .numeric_bracket) :
    extract_citations doc (detect_input_style doc) ≠ [] := by
  obtain ⟨p, hpmem, hph⟩ := List.countP_pos_iff.mp (detect_nb_pos doc h)
  have hfil := List.mem_filter.mp (List.mem_of_mem_take hpmem)
  rw [h]
  exact extractAux_ne doc 0 hfil.1 (fun j => nbExtractPara_ne j p (by simpa using hfil.2) hph)

lemma extract_ne_nil_of_detect_sup (doc : List Para)
    (h : detect_input_style doc = .superscript) :
    extract_citations doc (detect_input_style doc) ≠ [] := by
  obtain ⟨p, hpmem, hph⟩ := List.countP_pos_iff.mp (detect_sup_pos doc h)
  have hfil := List.mem_filter.mp (List.mem_of_mem_take hpmem)
  rw [h]
  exact extractAux_ne doc 0 hfil.1 (fun j => supExtractPara_ne j p (by simpa using hfil.2) hph)

/-- C8: when the detected style is numeric_bracket or superscript and the
configured target is author_year, `apply_citations` leaves the document
untouched, emits exactly the explicit infeasibility warning, and still
reports `citations_found` as the number of extracted occurrences. -/
theorem c8_infeasible_author_year_refusal (doc : List Para) (cfg : CitCfg)
    (hin : detect_input_style doc = .numeric_bracket ∨
      detect_input_style doc = .superscript)
    (htgt : cfg.type = .author_year) :
    apply_citations doc cfg =
      ⟨[if detect_input_style doc = Style.numeric_bracket then infeasNumericMsg
        else infeasSuperMsg],
       (extract_citations doc (detect_input_style doc)).length, 0, doc⟩ := by
  unfold apply_citations
  dsimp only
  rcases hin with h | h
  · have hne := extract_ne_nil_of_detect_nb doc h
    rw [h] at hne ⊢
    rw [htgt]
    rw [if_neg (by simp)]
    rw [if_neg (by simpa [List.isEmpty_iff] using hne)]
    rw [if_pos (by simp)]
    rw [if_pos rfl]
  · have hne := extract_ne_nil_of_detect_sup doc h
    rw [h] at hne ⊢
    rw [htgt]
    rw [if_neg (by simp)]
    rw [if_neg (by simpa [List.isEmpty_iff] using hne)]
    rw [if_neg (by simp)]
    rw [if_pos (by simp)]
    rw [if_neg (by simp)]

def docBracket : List Para :=
  [{ runs := [{ text := str "As shown in [1] and [2]." }] }]

def cfgAYTarget : CitCfg :=
  { type := .author_year, format := str "[{num}]", sort := str "order_of_appearance" }

theorem c8_witness :
    (detect_input_style docBracket = .numeric_bracket ∨
      detect_input_style docBracket = .superscript) ∧
    cfgAYTarget.type = .author_year ∧
    apply_citations docBracket cfgAYTarget =
      ⟨[if detect_input_style docBracket = Style.numeric_bracket then infeasNumericMsg
        else infeasSuperMsg],
       (extract_citations docBracket (detect_input_style docBracket)).length, 0,
       docBracket⟩ :=
  ⟨Or.inl (by decide), rfl,
   c8_infeasible_author_year_refusal docBracket cfgAYTarget (Or.inl (by decide)) rfl⟩

-- ---------------------------------------------------------------------------
-- C7 and C10: behaviour of apply_references on the entry range
-- ---------------------------------------------------------------------------

lemma getD_set_ne (l : List Para) (i j : Nat) (a : Para) (h : i ≠ j) :
    (l.set i a).getD j default = l.getD j default := by
  rw [List.getD_eq_getElem?_getD, List.getD_eq_getElem?_getD, List.getElem?_set_ne h]

lemma getD_set_self (l : List Para) (i : Nat) (a : Para) (h : i < l.length) :
    (l.set i a).getD i default = a := by
  rw [List.getD_eq_getElem?_getD]
  simp [List.getElem?_set_self', h]

lemma refLoop_warn_mono (cfg : RefCfg) :
    ∀ (idxs : List Nat) (doc : List Para) (w : List Str) (found reform number : Nat)
      (x : Str), x ∈ w → x ∈ (refLoop cfg idxs doc w found reform number).warnings := by
  intro idxs
  induction idxs with
  | nil => intro doc w found reform number x hx; simpa [refLoop] using hx
  | cons idx rest ih =>
    intro doc w found reform number x hx
    rw [refLoop]
    dsimp only
    split
    · exact ih _ _ _ _ _ _ hx
    · split
      · exact ih _ _ _ _ _ _ (List.mem_append_left _ hx)
      · exact ih _ _ _ _ _ _ hx

lemma refLoop_frame (cfg : RefCfg) :
    ∀ (idxs : List Nat) (doc : List Para) (w : List Str) (found reform number j : Nat),
    j ∉ idxs →
    (refLoop cfg idxs doc w found reform number).doc.getD j default =
      doc.getD j default := by
  intro idxs
  induction idxs with
  | nil => intro doc w found reform number j _; simp [refLoop]
  | cons idx rest ih =>
    intro doc w found reform number j hj
    have hj1 : idx ≠ j := fun h => hj (h ▸ List.mem_cons_self idx rest)
    have hj2 : j ∉ rest := fun h => hj (List.mem_cons_of_mem idx h)
    rw [refLoop]
    dsimp only
    split
    · exact ih _ _ _ _ _ _ hj2
    · split
      · rw [ih _ _ _ _ _ _ hj2, getD_set_ne _ _ _ _ hj1]
      · rw [ih _ _ _ _ _ _ hj2, getD_set_ne _ _ _ _ hj1]

lemma default_para_strip_empty :
    (stripStr (merge_paragraph_runs (default : Para))).isEmpty = true := by
  decide

lemma idx_lt_of_nonempty {doc : List Para} {idx : Nat} {p0 : Para}
    (hp0 : doc.getD idx default = p0)
    (hne : (stripStr (merge_paragraph_runs p0)).isEmpty = false) :
    idx < doc.length := by
  by_contra hge
  have hd : doc.getD idx default = default := by
    rw [List.getD_eq_getElem?_getD, List.getElem?_eq_none (by omega)]
    rfl
  rw [hd] at hp0
  rw [← hp0] at hne
  rw [default_para_strip_empty] at hne
  cases hne

lemma refLoop_unparsed (cfg : RefCfg) :
    ∀ (idxs : List Nat) (doc : List Para) (w : List Str) (found reform number idx : Nat)
      (p0 : Para),
    idxs.Nodup → idx ∈ idxs → doc.getD idx default = p0 →
    (stripStr (merge_paragraph_runs p0)).isEmpty = false →
    parse_reference (stripStr (merge_paragraph_runs p0)) = none →
    (refLoop cfg idxs doc w found reform number).doc.getD idx default =
      _apply_paragraph_formatting p0 cfg.hanging_indent cfg.font_size ∧
    ∃ k, parseFailMsg k (stripStr (merge_paragraph_runs p0)) ∈
      (refLoop cfg idxs doc w found reform number).warnings := by
  intro idxs
  induction idxs with
  | nil => intro doc w found reform number idx p0 _ hmem; cases hmem
  | cons i rest ih =>
    intro doc w found reform number idx p0 hnd hmem hp0 hne hparse
    have hnd2 := List.nodup_cons.mp hnd
    rcases List.mem_cons.mp hmem with rfl | hmem2
    · have hlt : idx < doc.length := idx_lt_of_nonempty hp0 hne
      rw [refLoop]
      dsimp only
      rw [hp0, if_neg (by rw [hne]; simp), hparse]
      constructor
      · rw [refLoop_frame cfg rest _ _ _ _ _ _ hnd2.1, getD_set_self _ _ _ hlt]
      · exact ⟨found + 1,
          refLoop_warn_mono cfg rest _ _ _ _ _ _
            (List.mem_append_right _ (by simp))⟩
    · have hneqi : i ≠ idx := fun h => hnd2.1 (h ▸ hmem2)
      rw [refLoop]
      dsimp only
      split
      · exact ih _ _ _ _ _ _ _ hnd2.2 hmem2 hp0 hne hparse
      · split
        · exact ih _ _ _ _ _ _ _ hnd2.2 hmem2
            ((getD_set_ne _ _ _ _ hneqi).trans hp0) hne hparse
        · exact ih _ _ _ _ _ _ _ hnd2.2 hmem2
            ((getD_set_ne _ _ _ _ hneqi).trans hp0) hne hparse

lemma refLoop_parsed (cfg : RefCfg) :
    ∀ (idxs : List Nat) (doc : List Para) (w : List Str) (found reform number idx : Nat)
      (p0 : Para) (fields : RefFields),
    idxs.Nodup → idx ∈ idxs → doc.getD idx default = p0 →
    (stripStr (merge_paragraph_runs p0)).isEmpty = false →
    parse_reference (stripStr (merge_paragraph_runs p0)) = some fields →
    ∃ n, (refLoop cfg idxs doc w found reform number).doc.getD idx default =
      _apply_paragraph_formatting
        (_replace_paragraph_text p0 (renderedRefText fields cfg n))
        cfg.hanging_indent cfg.font_size := by
  intro idxs
  induction idxs with
  | nil => intro doc w found reform number idx p0 fields _ hmem; cases hmem
  | cons i rest ih =>
    intro doc w found reform number idx p0 fields hnd hmem hp0 hne hparse
    have hnd2 := List.nodup_cons.mp hnd
    rcases List.mem_cons.mp hmem with rfl | hmem2
    · have hlt : idx < doc.length := idx_lt_of_nonempty hp0 hne
      refine ⟨number, ?_⟩
      rw [refLoop]
      dsimp only
      rw [hp0, if_neg (by rw [hne]; simp), hparse]
      rw [refLoop_frame cfg rest _ _ _ _ _ _ hnd2.1, getD_set_self _ _ _ hlt]
    · have hneqi : i ≠ idx := fun h => hnd2.1 (h ▸ hmem2)
      rw [refLoop]
      dsimp only
      split
      · exact ih _ _ _ _ _ _ _ _ hnd2.2 hmem2 hp0 hne hparse
      · split
        · exact ih _ _ _ _ _ _ _ _ hnd2.2 hmem2
            ((getD_set_ne _ _ _ _ hneqi).trans hp0) hne hparse
        · exact ih _ _ _ _ _ _ _ _ hnd2.2 hmem2
            ((getD_set_ne _ _ _ _ hneqi).trans hp0) hne hparse

/-- C7: an entry paragraph in the located references range whose stripped
text is nonempty but unparsable (fewer than 3 fields) is left with its run
texts unchanged, still receives the hanging indent and the font size, and a
parse-failure warning is emitted. -/
theorem c7_unparsed_entry_layout_still_applied (doc : List Para) (cfg : RefCfg)
    (s e idx : Nat) (p0 : Para)
    (hsec : find_references_section doc = some (s, e))
    (hlo : s + 1 ≤ idx) (hhi : idx < e)
    (hp0 : doc.getD idx default = p0)
    (hne : (stripStr (merge_paragraph_runs p0)).isEmpty = false)
    (hparse : parse_reference (stripStr (merge_paragraph_runs p0)) = none) :
    ((apply_references doc cfg).doc.getD idx default).runs.map Run.text
        = p0.runs.map Run.text ∧
    ((apply_references doc cfg).doc.getD idx default).leftIndent
        = some (inchesEmu cfg.hanging_indent) ∧
    ((apply_references doc cfg).doc.getD idx default).firstLineIndent
        = some (-(inchesEmu cfg.hanging_indent)) ∧
    (∀ r ∈ ((apply_references doc cfg).doc.getD idx default).runs,
        r.fmt.size = some (ptEmu cfg.font_size)) ∧
    (∃ k, parseFailMsg k (stripStr (merge_paragraph_runs p0)) ∈
        (apply_references doc cfg).warnings) := by
  have hmem : idx ∈ List.range' (s + 1) (e - (s + 1)) := by
    rw [List.mem_range'_1]; omega
  have hnd : (List.range' (s + 1) (e - (s + 1))).Nodup :=
    List.nodup_range' (s + 1) (e - (s + 1)) 1
  unfold apply_references
  rw [hsec]
  dsimp only
  obtain ⟨hdoc, ⟨k, hk⟩⟩ :=
    refLoop_unparsed cfg _ doc [] 0 0 1 idx p0 hnd hmem hp0 hne hparse
  refine ⟨?_, ?_, ?_, ?_, ⟨k, hk⟩⟩
  · rw [hdoc]
    unfold _apply_paragraph_formatting
    rw [List.map_map]
    rfl
  · rw [hdoc]; rfl
  · rw [hdoc]; rfl
  · rw [hdoc]
    intro r hr
    unfold _apply_paragraph_formatting at hr
    obtain ⟨r0, _, rfl⟩ := List.mem_map.mp hr
    rfl

def docRefs : List Para :=
  [{ style := str "Heading 1", runs := [{ text := str "References" }] },
   { runs := [{ text := str "(2020)" }] }]

def cfgRefs : RefCfg :=
  { numbering := str "unnumbered",
    format := str "{authors} ({year}). {title}. {journal}, {volume}({issue}), {pages}. {doi}",
    hanging_indent := 1/2, font_size := 10 }

theorem c7_witness :
    (find_references_section docRefs = some (0, 2) ∧
     (stripStr (merge_paragraph_runs (docRefs.getD 1 default))).isEmpty = false ∧
     parse_reference (stripStr (merge_paragraph_runs (docRefs.getD 1 default))) = none) ∧
    (((apply_references docRefs cfgRefs).doc.getD 1 default).runs.map Run.text
        = (docRefs.getD 1 default).runs.map Run.text ∧
     ((apply_references docRefs cfgRefs).doc.getD 1 default).leftIndent
        = some (inchesEmu cfgRefs.hanging_indent) ∧
     ((apply_references docRefs cfgRefs).doc.getD 1 default).firstLineIndent
        = some (-(inchesEmu cfgRefs.hanging_indent)) ∧
     (∀ r ∈ ((apply_references docRefs cfgRefs).doc.getD 1 default).runs,
        r.fmt.size = some (ptEmu cfgRefs.font_size)) ∧
     (∃ k, parseFailMsg k (stripStr (merge_paragraph_runs (docRefs.getD 1 default))) ∈
        (apply_references docRefs cfgRefs).warnings)) :=
  ⟨⟨by decide, by decide, by decide⟩,
   c7_unparsed_entry_layout_still_applied docRefs cfgRefs 0 2 1 _
     (by decide) (by omega) (by omega) rfl (by decide) (by decide)⟩

/-- C10: a successfully parsed entry paragraph has the whole rendered text
written into its first run (which keeps the first run's character
formatting, with the font size applied) while every other run's text is set
to empty — so afterwards the paragraph has at most one non-empty run and
the per-run formatting beyond the first run carries no text. -/
theorem c10_parsed_entry_single_run (doc : List Para) (cfg : RefCfg)
    (s e idx : Nat) (p0 : Para) (fields : RefFields)
    (hsec : find_references_section doc = some (s, e))
    (hlo : s + 1 ≤ idx) (hhi : idx < e)
    (hp0 : doc.getD idx default = p0)
    (hne : (stripStr (merge_paragraph_runs p0)).isEmpty = false)
    (hparse : parse_reference (stripStr (merge_paragraph_runs p0)) = some fields) :
    ∃ n,
      ((apply_references doc cfg).doc.getD idx default).runs =
        { text := renderedRefText fields cfg n,
          fmt := { (p0.runs.getD 0 default).fmt with
                   size := some (ptEmu cfg.font_size) } } ::
        (p0.runs.drop 1).map (fun r =>
          { text := [], fmt := { r.fmt with size := some (ptEmu cfg.font_size) } }) ∧
      ((apply_references doc cfg).doc.getD idx default).runs.countP
        (fun r => !r.text.isEmpty) ≤ 1 := by
  have hmem : idx ∈ List.range' (s + 1) (e - (s + 1)) := by
    rw [List.mem_range'_1]; omega
  have hnd : (List.range' (s + 1) (e - (s + 1))).Nodup :=
    List.nodup_range' (s + 1) (e - (s + 1)) 1
  have hrne : p0.runs ≠ [] := by
    intro hnil
    rw [merge_paragraph_runs, hnil] at hne
    simp [stripStr] at hne
  obtain ⟨r0, rest, hr⟩ := List.exists_cons_of_ne_nil hrne
  unfold apply_references
  rw [hsec]
  dsimp only
  obtain ⟨n, hdoc⟩ :=
    refLoop_parsed cfg _ doc [] 0 0 1 idx p0 fields hnd hmem hp0 hne hparse
  have hruns : (_apply_paragraph_formatting
      (_replace_paragraph_text p0 (renderedRefText fields cfg n))
      cfg.hanging_indent cfg.font_size).runs =
        { text := renderedRefText fields cfg n,
          fmt := { (p0.runs.getD 0 default).fmt with
                   size := some (ptEmu cfg.font_size) } } ::
        (p0.runs.drop 1).map (fun r =>
          { text := [], fmt := { r.fmt with size := some (ptEmu cfg.font_size) } }) := by
    unfold _replace_paragraph_text _apply_paragraph_formatting
    rw [hr]
    simp only [List.map_cons, List.map_map, List.drop_succ_cons, List.drop_zero]
    rfl
  refine ⟨n, ?_, ?_⟩
  · rw [hdoc, hruns]
  · rw [hdoc, hruns, List.countP_cons, List.countP_map]
    have hz : ((p0.runs.drop 1).countP
        ((fun r => !r.text.isEmpty) ∘ (fun r =>
          ({ text := [], fmt := { r.fmt with size := some (ptEmu cfg.font_size) } } : Run)))) = 0 := by
      simp [Function.comp]
    rw [hz]
    split <;> omega

def docRefs2 : List Para :=
  [{ style := str "Heading 1", runs := [{ text := str "References" }] },
   { runs := [{ text := str "Smith, J. (2020). A study of things. " },
              { text := str "J. Examples. 12(3), 45-67.",
                fmt := { italic := some true } }] }]

def fieldsSmith : RefFields :=
  { authors := some (str "Smith, J"), year := some (str "2020"),
    title := some (str "A study of things"), journal := some (str "J. Examples"),
    volume := some (str "12"), issue := some (str "3"),
    pages := some (str "45-67") }

theorem c10_witness :
    (find_references_section docRefs2 = some (0, 2) ∧
     (stripStr (merge_paragraph_runs (docRefs2.getD 1 default))).isEmpty = false ∧
     parse_reference (stripStr (merge_paragraph_runs (docRefs2.getD 1 default)))
        = some fieldsSmith) ∧
    (∃ n,
      ((apply_references docRefs2 cfgRefs).doc.getD 1 default).runs =
        { text := renderedRefText fieldsSmith cfgRefs n,
          fmt := { ((docRefs2.getD 1 default).runs.getD 0 default).fmt with
                   size := some (ptEmu cfgRefs.font_size) } } ::
        ((docRefs2.getD 1 default).runs.drop 1).map (fun r =>
          { text := [],
            fmt := { r.fmt with size := some (ptEmu cfgRefs.font_size) } }) ∧
      ((apply_references docRefs2 cfgRefs).doc.getD 1 default).runs.countP
        (fun r => !r.text.isEmpty) ≤ 1) :=
  ⟨⟨by decide, by decide, by decide⟩,
   c10_parsed_entry_single_run docRefs2 cfgRefs 0 2 1 _ fieldsSmith
     (by decide) (by omega) (by omega) rfl (by decide) (by decide)⟩
